import Mathlib

/-!
Verification development for the commit-genius CLI.
The definitions below are a shallow embedding of the TypeScript source
in src/index.ts; stateful file-system code is modelled by explicit
state passing over the content of the persisted notes file, and the
JavaScript string operations (trim, split, regex replaces, the falsy
test on strings) are modelled on lists of characters.
-/

namespace CommitGenius

/- JavaScript string helpers -/

-- whitespace characters relevant to String.prototype.trim on the inputs used here
def isSpaceChar (c : Char) : Bool :=
  c == ' ' || c == '\t' || c == '\n' || c == '\r'

def isQuoteChar (c : Char) : Bool :=
  c == '"' || c == '\''

-- JS: a || b on strings, where the empty string is falsy
def jsOr (a b : String) : String :=
  if a = "" then b else a

-- JS truthiness of a string | undefined value
def jsTruthy (s : Option String) : Bool :=
  match s with
  | none => false
  | some v => v != ""

def trimChars (l : List Char) : List Char :=
  ((l.dropWhile isSpaceChar).reverse.dropWhile isSpaceChar).reverse

-- model of String.prototype.trim
def jsTrim (s : String) : String :=
  String.mk (trimChars s.data)

/- Notes Store (loadStagedNotes / saveStagedNotes / addStagedNote /
   clearStagedNotes / listStagedNotes in src/index.ts).
   The persisted file is modelled by its parse outcome; timestamps by Nat. -/

structure StagedNote where
  message : String
  timestamp : Nat
deriving DecidableEq

structure StagedNotesFile where
  -- the notes field of the JSON object may be missing, hence Option
  notes : Option (List StagedNote)
  repository : String
deriving DecidableEq

inductive NotesFileContent where
  | absent
  | malformed
  | parsed (f : StagedNotesFile)
deriving DecidableEq

-- loadStagedNotes: missing file, parse failure and repository mismatch all
-- yield the empty list; the missing notes field falls back to [] as well.
def loadStagedNotes (w : NotesFileContent) (repo : String) : List StagedNote :=
  match w with
  | .absent => []
  | .malformed => []
  | .parsed f => if f.repository ≠ repo then [] else f.notes.getD []

-- loadStagedNotes performs no write to the file system; its effect on the
-- persisted content is the identity.
def loadStagedNotesSt (w : NotesFileContent) (repo : String) :
    List StagedNote × NotesFileContent :=
  (loadStagedNotes w repo, w)

def saveStagedNotes (notes : List StagedNote) (repo : String) : NotesFileContent :=
  NotesFileContent.parsed { notes := some notes, repository := repo }

-- addStagedNote: read-modify-write of the whole file; the message is trimmed.
def addStagedNote (w : NotesFileContent) (repo : String) (message : String)
    (ts : Nat) : NotesFileContent :=
  let notes := loadStagedNotes w repo
  saveStagedNotes (notes ++ [{ message := jsTrim message, timestamp := ts }]) repo

-- clearStagedNotes: unlink the file when present, no-op otherwise; the only
-- failure in the source is the not-a-repository case, modelled by gitOk.
def clearStagedNotes (gitOk : Bool) (w : NotesFileContent) :
    Except String NotesFileContent :=
  if gitOk then
    match w with
    | .absent => Except.ok NotesFileContent.absent
    | _ => Except.ok NotesFileContent.absent
  else
    Except.error "Failed to clear staged notes: Not in a git repository."

-- listStagedNotes prints exactly the sequence returned by loadStagedNotes.
def listStagedNotes (w : NotesFileContent) (repo : String) : List StagedNote :=
  loadStagedNotes w repo

def addAll (w : NotesFileContent) (repo : String)
    (msgs : List (String × Nat)) : NotesFileContent :=
  msgs.foldl (fun acc q => addStagedNote acc repo q.1 q.2) w

/- Helper lemmas about the store -/

theorem loadStagedNotes_add (w : NotesFileContent) (repo m : String) (ts : Nat) :
    loadStagedNotes (addStagedNote w repo m ts) repo
      = loadStagedNotes w repo ++ [{ message := jsTrim m, timestamp := ts }] := by
  simp [addStagedNote, saveStagedNotes, loadStagedNotes]

theorem loadStagedNotes_addAll (repo : String) (msgs : List (String × Nat)) :
    ∀ w : NotesFileContent,
      loadStagedNotes (addAll w repo msgs) repo
        = loadStagedNotes w repo
            ++ msgs.map (fun q => { message := jsTrim q.1, timestamp := q.2 }) := by
  induction msgs with
  | nil => intro w; simp [addAll]
  | cons m rest ih =>
    intro w
    have h1 : addAll w repo (m :: rest)
        = addAll (addStagedNote w repo m.1 m.2) repo rest := by
      simp [addAll, List.foldl_cons]
    rw [h1, ih, loadStagedNotes_add]
    simp

/- Configuration resolution (getApiKey / getDefaultModel in src/index.ts).
   Unset environment variables and missing config fields are modelled by the
   empty string, which is exactly the falsy case of the JS || chain. -/

structure EnvVars where
  commitGeniusApiKey : String
  geminiApiKey : String
  commitGeniusModel : String
  geminiModel : String
deriving DecidableEq

structure GConfig where
  apiKey : String
  model : String
deriving DecidableEq

-- getApiKey: COMMIT_GENIUS_API_KEY || GEMINI_API_KEY || loadGlobalConfig().apiKey
def getApiKey (e : EnvVars) (cfg : GConfig) : String :=
  jsOr e.commitGeniusApiKey (jsOr e.geminiApiKey cfg.apiKey)

-- getDefaultModel:
-- COMMIT_GENIUS_MODEL || GEMINI_MODEL || loadGlobalConfig().model || default
def getDefaultModel (e : EnvVars) (cfg : GConfig) : String :=
  jsOr e.commitGeniusModel
    (jsOr e.geminiModel (jsOr cfg.model "gemini-2.5-flash-lite"))

-- model selection in the AICommitGenerator constructor:
-- modelName || getDefaultModel()
def selectedModel (cliModel : Option String) (e : EnvVars) (cfg : GConfig) :
    String :=
  match cliModel with
  | some m => jsOr m (getDefaultModel e cfg)
  | none => getDefaultModel e cfg

/- Message normalization (the deterministic tail of generateCommitMessage):
   text = raw.trim(); lines = text.split with newline; first line trimmed;
   then replace of a leading or trailing quote character and of a leading
   literal git commit -m echo. -/

def firstLineChars (l : List Char) : List Char :=
  l.takeWhile (fun c => c != '\n')

def dropLeadQuote (l : List Char) : List Char :=
  match l with
  | [] => []
  | c :: r => if isQuoteChar c then r else c :: r

-- the regex anchored at both ends with the g flag removes at most one
-- leading and at most one trailing quote character
def stripQuoteChars (l : List Char) : List Char :=
  (dropLeadQuote ((dropLeadQuote l).reverse)).reverse

def gitCmdChars : List Char :=
  ['g', 'i', 't', ' ', 'c', 'o', 'm', 'm', 'i', 't', ' ', '-', 'm']

def stripGitCmd (l : List Char) : List Char :=
  if gitCmdChars.isPrefixOf l then
    (l.drop gitCmdChars.length).dropWhile isSpaceChar
  else l

def normalizeChars (l : List Char) : List Char :=
  stripGitCmd (stripQuoteChars (trimChars (firstLineChars (trimChars l))))

def normalizeMsg (s : String) : String :=
  String.mk (normalizeChars s.data)

/- Helper lemmas for normalization -/

theorem takeWhile_eq_self_of_all {p : Char → Bool} :
    ∀ l : List Char, (∀ a ∈ l, p a = true) → l.takeWhile p = l := by
  intro l h
  induction l with
  | nil => rfl
  | cons a t ih =>
    have ha : p a = true := h a (by simp)
    rw [List.takeWhile_cons, if_pos ha,
      ih (fun b hb => h b (by simp [hb]))]

theorem mem_trimChars {a : Char} {l : List Char} (h : a ∈ trimChars l) :
    a ∈ l := by
  unfold trimChars at h
  rw [List.mem_reverse] at h
  have h2 := (List.dropWhile_sublist (l := (l.dropWhile isSpaceChar).reverse)
    (p := isSpaceChar)).subset h
  rw [List.mem_reverse] at h2
  exact (List.dropWhile_sublist (l := l) (p := isSpaceChar)).subset h2

theorem mem_dropLeadQuote {a : Char} {l : List Char}
    (h : a ∈ dropLeadQuote l) : a ∈ l := by
  unfold dropLeadQuote at h
  cases l with
  | nil => exact h
  | cons c r =>
    by_cases hq : isQuoteChar c = true
    · simp [hq] at h
      simp [h]
    · simp [hq] at h
      simpa using h

theorem mem_stripQuoteChars {a : Char} {l : List Char}
    (h : a ∈ stripQuoteChars l) : a ∈ l := by
  unfold stripQuoteChars at h
  rw [List.mem_reverse] at h
  have h2 := mem_dropLeadQuote h
  rw [List.mem_reverse] at h2
  exact mem_dropLeadQuote h2

theorem mem_stripGitCmd {a : Char} {l : List Char}
    (h : a ∈ stripGitCmd l) : a ∈ l := by
  unfold stripGitCmd at h
  by_cases hp : gitCmdChars.isPrefixOf l = true
  · simp only [hp, if_true] at h
    have h2 := (List.dropWhile_sublist (l := l.drop gitCmdChars.length)
      (p := isSpaceChar)).subset h
    exact List.drop_subset _ l h2
  · simp only [hp] at h
    simpa using h

theorem mem_normalizeChars_ne_newline {a : Char} {l : List Char}
    (h : a ∈ normalizeChars l) : a ≠ '\n' := by
  unfold normalizeChars at h
  have h1 := mem_trimChars (mem_stripQuoteChars (mem_stripGitCmd h))
  have h2 := List.mem_takeWhile_imp h1
  simpa using h2

theorem firstLineChars_normalizeChars (l : List Char) :
    firstLineChars (normalizeChars l) = normalizeChars l := by
  apply takeWhile_eq_self_of_all
  intro a ha
  have := mem_normalizeChars_ne_newline ha
  simpa using this

/- Claim theorems for configuration resolution -/

/-- C3 (code bug): the source consults the legacy environment variables
GEMINI_API_KEY and GEMINI_MODEL before the config file, while CONFIG.md and
the help text of the program itself document the precedence CLI flag >
primary environment > config file > legacy environment > default. With the
primary sources unset and both the config file and the legacy variable set,
the code returns the legacy value, not the config-file value. -/
theorem apiKey_legacy_over_config_eval :
    getApiKey
        { commitGeniusApiKey := "", geminiApiKey := "legacy-key",
          commitGeniusModel := "", geminiModel := "" }
        { apiKey := "config-key", model := "" } = "legacy-key" ∧
    getDefaultModel
        { commitGeniusApiKey := "", geminiApiKey := "",
          commitGeniusModel := "", geminiModel := "legacy-model" }
        { apiKey := "", model := "config-model" } = "legacy-model" ∧
    selectedModel (some "cli-model")
        { commitGeniusApiKey := "", geminiApiKey := "",
          commitGeniusModel := "", geminiModel := "legacy-model" }
        { apiKey := "", model := "config-model" } = "cli-model" := by
  refine ⟨by decide, by decide, by decide⟩

/- Claim theorems for message normalization -/

set_option maxHeartbeats 1000000 in
/-- C4 (counterexample): normalization is not idempotent for every input: on
the raw response consisting of a git commit -m echo followed by a quoted
message, the first pass strips the trailing quote and the command echo,
leaving a string with a fresh leading quote that a second pass removes. -/
theorem normalizeMsg_not_idempotent_cex :
    normalizeMsg (normalizeMsg "git commit -m \"hi\"")
      ≠ normalizeMsg "git commit -m \"hi\"" := by
  decide

/-- C4 (amended): normalization is idempotent on every input whose normalized
form is stable under the three rewriting steps, that is, whose normalized
form carries no leading or trailing whitespace, no leading or trailing quote
character, and no leading git commit -m echo; on such inputs a second
application returns the first output unchanged. The original claim fails
when stripping one layer exposes another (see the counterexample). -/
theorem normalizeMsg_idempotent_amended (s : String)
    (ht : trimChars (normalizeMsg s).data = (normalizeMsg s).data)
    (hq : stripQuoteChars (normalizeMsg s).data = (normalizeMsg s).data)
    (hg : gitCmdChars.isPrefixOf (normalizeMsg s).data = false) :
    normalizeMsg (normalizeMsg s) = normalizeMsg s := by
  have hdata : (normalizeMsg s).data = normalizeChars s.data := rfl
  have key : normalizeChars (normalizeMsg s).data = (normalizeMsg s).data := by
    calc normalizeChars (normalizeMsg s).data
        = stripGitCmd (stripQuoteChars (trimChars (firstLineChars
            (trimChars (normalizeMsg s).data)))) := rfl
      _ = stripGitCmd (stripQuoteChars (trimChars (firstLineChars
            (normalizeMsg s).data))) := by rw [ht]
      _ = stripGitCmd (stripQuoteChars (trimChars (normalizeMsg s).data)) := by
            rw [hdata, firstLineChars_normalizeChars]
      _ = stripGitCmd (stripQuoteChars (normalizeMsg s).data) := by rw [ht]
      _ = stripGitCmd (normalizeMsg s).data := by rw [hq]
      _ = (normalizeMsg s).data := by unfold stripGitCmd; rw [hg]; simp
  show String.mk (normalizeChars (normalizeMsg s).data) = normalizeMsg s
  rw [key]

/-- C4 (witness): the amended idempotence applied to a concrete conventional
commit message. -/
theorem normalizeMsg_idempotent_amended_witness :
    normalizeMsg (normalizeMsg "feat: add login flow")
      = normalizeMsg "feat: add login flow" :=
  normalizeMsg_idempotent_amended "feat: add login flow"
    (by decide) (by decide) (by decide)

/- Claim theorems for the Notes Store -/

/-- C5 (counterexample): the claim that every note returned by list has a
message that is non-empty after trimming fails when the added message
consists only of whitespace: addStagedNote stores the trimmed message, so
adding the message built of three spaces stores the empty string. -/
theorem add_list_whitespace_cex :
    ¬ (∀ n ∈ listStagedNotes
          (addStagedNote NotesFileContent.absent "/r" "   " 0) "/r",
        jsTrim n.message ≠ "") := by
  decide

/-- C5 (amended): for every non-empty sequence of messages passed to add on an
initially absent store, a subsequent list returns exactly the appended notes
in insertion order, each storing the trimmed original message (a message that
is only whitespace is therefore stored with the empty message, so the
non-emptiness guarantee of the original claim does not hold). -/
theorem add_then_list_amended (repo : String) (msgs : List (String × Nat))
    (_h : msgs ≠ []) :
    listStagedNotes (addAll NotesFileContent.absent repo msgs) repo
      = msgs.map (fun q => { message := jsTrim q.1, timestamp := q.2 }) := by
  have := loadStagedNotes_addAll repo msgs NotesFileContent.absent
  simpa [listStagedNotes, loadStagedNotes] using this

/-- C5 (witness): concrete instance of the amended claim with two messages,
the second carrying surrounding whitespace. -/
theorem add_then_list_amended_witness :
    listStagedNotes
        (addAll NotesFileContent.absent "/repo" [("alpha", 1), ("  beta ", 2)])
        "/repo"
      = [{ message := "alpha", timestamp := 1 },
         { message := "beta", timestamp := 2 }] := by
  have h := add_then_list_amended "/repo" [("alpha", 1), ("  beta ", 2)]
    (by decide)
  simpa using h

/-- C6: loadStagedNotes fails soft: a missing file, unparsable content and a
stored repository different from the current one each yield the empty
sequence; notes saved under repository A are never returned from repository
B; and load leaves the persisted content unchanged (it performs no write). -/
theorem loadStagedNotes_fails_soft (repo repoA repoB : String)
    (f : StagedNotesFile) (notes : List StagedNote)
    (hmis : f.repository ≠ repo) (hAB : repoA ≠ repoB) :
    loadStagedNotes NotesFileContent.absent repo = [] ∧
    loadStagedNotes NotesFileContent.malformed repo = [] ∧
    loadStagedNotes (NotesFileContent.parsed f) repo = [] ∧
    loadStagedNotes (saveStagedNotes notes repoA) repoB = [] ∧
    loadStagedNotesSt (NotesFileContent.parsed f) repo
      = ([], NotesFileContent.parsed f) := by
  refine ⟨rfl, rfl, ?_, ?_, ?_⟩
  · simp [loadStagedNotes, hmis]
  · simp only [loadStagedNotes, saveStagedNotes]
    rw [if_pos hAB]
  · simp [loadStagedNotesSt, loadStagedNotes, hmis]

/-- C6 (witness): concrete instance with a note stored under repository /a and
load evaluated from repository /b. -/
theorem loadStagedNotes_fails_soft_witness :
    loadStagedNotes NotesFileContent.absent "/b" = [] ∧
    loadStagedNotes NotesFileContent.malformed "/b" = [] ∧
    loadStagedNotes
        (NotesFileContent.parsed
          { notes := some [{ message := "x", timestamp := 0 }],
            repository := "/a" }) "/b" = [] ∧
    loadStagedNotes
        (saveStagedNotes [{ message := "x", timestamp := 0 }] "/a") "/b" = [] ∧
    loadStagedNotesSt
        (NotesFileContent.parsed
          { notes := some [{ message := "x", timestamp := 0 }],
            repository := "/a" }) "/b"
      = ([], NotesFileContent.parsed
          { notes := some [{ message := "x", timestamp := 0 }],
            repository := "/a" }) :=
  loadStagedNotes_fails_soft "/b" "/a" "/b"
    { notes := some [{ message := "x", timestamp := 0 }], repository := "/a" }
    [{ message := "x", timestamp := 0 }] (by decide) (by decide)

/-- C9: clearStagedNotes is idempotent: on an absent file it is a no-op that
raises no error, and running clear twice in a row (inside a repository) gives
the same final state and outcome as running it once. -/
theorem clearStagedNotes_idem :
    clearStagedNotes true NotesFileContent.absent
      = Except.ok NotesFileContent.absent ∧
    ∀ w : NotesFileContent,
      (clearStagedNotes true w).bind (fun w2 => clearStagedNotes true w2)
        = clearStagedNotes true w := by
  refine ⟨rfl, ?_⟩
  intro w
  cases w <;> rfl

/- Prefix resolution (extractPrefixFromBranch / validatePrefix / getPrefix /
   formatCommitMessage in src/index.ts). The four anchored regex patterns are
   modelled by maximal-munch matching, which agrees with the regex engine
   here because the letter and digit character classes are disjoint. -/

-- anchored match of letters, a dash and digits, case-insensitive;
-- returns the captured characters
def matchLettersDashDigits (l : List Char) : Option (List Char) :=
  let letters := l.takeWhile Char.isAlpha
  if letters = [] then none
  else
    match l.drop letters.length with
    | '-' :: r2 =>
      let digits := r2.takeWhile Char.isDigit
      if digits = [] then none else some (letters ++ '-' :: digits)
    | _ => none

-- anchored match of letters directly followed by digits, case-insensitive
def matchLettersDigits (l : List Char) : Option (List Char) :=
  let letters := l.takeWhile Char.isAlpha
  if letters = [] then none
  else
    let r2 := l.drop letters.length
    let digits := r2.takeWhile Char.isDigit
    if digits = [] then none else some (letters ++ digits)

-- case-insensitive match of a fixed lowercase word at the head of the list
def matchWordCI : List Char → List Char → Option (List Char)
  | [], l => some l
  | _, [] => none
  | w :: ws, c :: cs => if c.toLower = w then matchWordCI ws cs else none

def stripOneType (w : List Char) (l : List Char) : Option (List Char) :=
  match matchWordCI w l with
  | some ('/' :: r2) => some r2
  | _ => none

-- the alternation feature|bugfix|hotfix|chore followed by a slash
def stripTypeSlash (l : List Char) : Option (List Char) :=
  (stripOneType "feature".data l).orElse fun _ =>
  (stripOneType "bugfix".data l).orElse fun _ =>
  (stripOneType "hotfix".data l).orElse fun _ =>
  stripOneType "chore".data l

-- extractPrefixFromBranch: the four patterns are tried in order and the
-- captured group of the first match is upper-cased
def extractPfxFromBranch (branch : String) : Option String :=
  let l := branch.data
  let cap :=
    ((stripTypeSlash l).bind matchLettersDashDigits).orElse fun _ =>
    (matchLettersDashDigits l).orElse fun _ =>
    ((stripTypeSlash l).bind matchLettersDigits).orElse fun _ =>
    matchLettersDigits l
  cap.map (fun c => String.mk (c.map Char.toUpper))

-- the four case-sensitive full-string validation patterns
def fullUpperDashDigits (l : List Char) : Bool :=
  let letters := l.takeWhile Char.isUpper
  decide (letters ≠ []) &&
    match l.drop letters.length with
    | '-' :: r2 =>
      let digits := r2.takeWhile Char.isDigit
      decide (digits ≠ []) && decide (r2.drop digits.length = [])
    | _ => false

def fullUpperDigits (l : List Char) : Bool :=
  let letters := l.takeWhile Char.isUpper
  decide (letters ≠ []) &&
    (let r2 := l.drop letters.length
     let digits := r2.takeWhile Char.isDigit
     decide (digits ≠ []) && decide (r2.drop digits.length = []))

def fullHashDigits (l : List Char) : Bool :=
  match l with
  | '#' :: r => decide (r ≠ []) && r.all Char.isDigit
  | _ => false

def fullUpperTwoDashDigits (l : List Char) : Bool :=
  let letters := l.takeWhile Char.isUpper
  decide (2 ≤ letters.length) &&
    match l.drop letters.length with
    | '-' :: r2 =>
      let digits := r2.takeWhile Char.isDigit
      decide (digits ≠ []) && decide (r2.drop digits.length = [])
    | _ => false

-- validatePrefix: true when some validation pattern matches the whole string
def validatePfx (p : String) : Bool :=
  fullUpperDashDigits p.data || fullUpperDigits p.data ||
    fullHashDigits p.data || fullUpperTwoDashDigits p.data

structure PfxResult where
  value : Option String
  warned : Bool
deriving DecidableEq

-- branch detection step of getPrefix: enabled unless the config field is
-- explicitly false; a missing or empty branch yields no prefix, and a branch
-- matching no pattern yields no prefix
def branchPfx (autoB : Option Bool) (branch : Option String) : Option String :=
  if autoB = some false then none
  else
    match branch with
    | some b => if b = "" then none else extractPfxFromBranch b
    | none => none

-- getPrefix: a truthy CLI value is returned verbatim, with a warning exactly
-- when it fails validation; otherwise branch detection runs
def getPfx (cliPfx : Option String) (autoB : Option Bool)
    (branch : Option String) : PfxResult :=
  match cliPfx with
  | some p =>
    if p = "" then { value := branchPfx autoB branch, warned := false }
    else { value := some p, warned := !(validatePfx p) }
  | none => { value := branchPfx autoB branch, warned := false }

-- formatCommitMessage: the format argument is loosely typed at the call
-- site, so it is modelled as an arbitrary string; a falsy prefix returns the
-- message unchanged and an unrecognized format falls through to brackets
def formatCommitMessage (message : String) (pfx : Option String)
    (format : String) : String :=
  match pfx with
  | none => message
  | some p =>
    if p = "" then message
    else if format = "brackets" then "[" ++ p ++ "] " ++ message
    else if format = "colon" then p ++ ": " ++ message
    else "[" ++ p ++ "] " ++ message

theorem isPrefixOf_append_self :
    ∀ l t : List Char, (l.isPrefixOf (l ++ t)) = true := by
  intro l t
  induction l with
  | nil => simp [List.isPrefixOf]
  | cons a r ih => simp [List.isPrefixOf, ih]

/- Claim theorems for prefix resolution and formatting -/

/-- C8: prefix resolution is first-match-wins: a non-empty CLI override is
returned verbatim, with only a warning when it fails validation; with no
override and branch detection not disabled, the branch
feature/JR-1234-add-auth resolves to JR-1234 and the brackets format
produces a message starting with the bracketed prefix; and with no override
and a branch matching no pattern, no prefix is produced. -/
theorem getPfx_resolution (a : Option Bool) (b : Option String)
    (p m br : String) (hp : p ≠ "") (ha : a ≠ some false)
    (hbr : extractPfxFromBranch br = none) :
    (getPfx (some p) a b).value = some p ∧
    (getPfx (some p) a b).warned = !(validatePfx p) ∧
    (getPfx none a (some "feature/JR-1234-add-auth")).value
      = some "JR-1234" ∧
    formatCommitMessage m (some "JR-1234") "brackets" = "[JR-1234] " ++ m ∧
    ("[JR-1234] ".data).isPrefixOf
        (formatCommitMessage m (some "JR-1234") "brackets").data = true ∧
    (getPfx none a (some br)).value = none := by
  refine ⟨by simp [getPfx, hp], by simp [getPfx, hp], ?_, ?_, ?_, ?_⟩
  · simp only [getPfx, branchPfx, if_neg ha]
    decide
  · show ("[" ++ "JR-1234" ++ "] ") ++ m = "[JR-1234] " ++ m
    rfl
  · have he : formatCommitMessage m (some "JR-1234") "brackets"
        = "[JR-1234] " ++ m := by
      show ("[" ++ "JR-1234" ++ "] ") ++ m = "[JR-1234] " ++ m
      rfl
    rw [he]
    show ("[JR-1234] ".data).isPrefixOf
      ("[JR-1234] ".data ++ m.data) = true
    exact isPrefixOf_append_self _ _
  · simp only [getPfx, branchPfx]
    by_cases hfa : a = some false
    · simp [hfa]
    · simp [hfa, hbr]

/-- C8 (witness): concrete instance with an override failing validation, the
branch main matching no pattern, and a concrete message. -/
theorem getPfx_resolution_witness :
    (getPfx (some "not-a-ticket!") none none).value = some "not-a-ticket!" ∧
    (getPfx (some "not-a-ticket!") none none).warned
      = !(validatePfx "not-a-ticket!") ∧
    (getPfx none none (some "feature/JR-1234-add-auth")).value
      = some "JR-1234" ∧
    formatCommitMessage "feat: add auth" (some "JR-1234") "brackets"
      = "[JR-1234] " ++ "feat: add auth" ∧
    ("[JR-1234] ".data).isPrefixOf
        (formatCommitMessage "feat: add auth" (some "JR-1234")
          "brackets").data = true ∧
    (getPfx none none (some "main")).value = none :=
  getPfx_resolution none none "not-a-ticket!" "feat: add auth" "main"
    (by decide) (by decide) (by decide)

/-- C10: for a non-empty prefix, every format value other than colon yields
the brackets rendering, so an unrecognized format string from the loosely
typed config silently falls back to brackets; a missing or empty prefix
returns the message unchanged for every format value. -/
theorem formatCommitMessage_spec (m p f : String) (hp : p ≠ "")
    (hf : f ≠ "colon") :
    formatCommitMessage m (some p) f = "[" ++ p ++ "] " ++ m ∧
    (∀ g : String, formatCommitMessage m none g = m) ∧
    (∀ g : String, formatCommitMessage m (some "") g = m) := by
  refine ⟨?_, fun g => rfl, fun g => by simp [formatCommitMessage]⟩
  by_cases hb : f = "brackets"
  · simp [formatCommitMessage, hp, hb]
  · simp [formatCommitMessage, hp, hb, hf]

/-- C10 (witness): concrete instances with an unrecognized format value for
the fallback and with the colon format for the falsy-prefix identity. -/
theorem formatCommitMessage_spec_witness :
    formatCommitMessage "feat: x" (some "JR-1") "weird"
      = "[" ++ "JR-1" ++ "] " ++ "feat: x" ∧
    formatCommitMessage "feat: x" none "colon" = "feat: x" ∧
    formatCommitMessage "feat: x" (some "") "colon" = "feat: x" :=
  ⟨(formatCommitMessage_spec "feat: x" "JR-1" "weird"
      (by decide) (by decide)).1,
   (formatCommitMessage_spec "feat: x" "JR-1" "weird"
      (by decide) (by decide)).2.1 "colon",
   (formatCommitMessage_spec "feat: x" "JR-1" "weird"
      (by decide) (by decide)).2.2 "colon"⟩

/- Diff summarizer (checkStagedChanges in src/index.ts). Inputs are the
   trimmed name-status listing, the outcome of fetching the full diff (an
   error models the buffer overflow case), and the stat and name-only
   listings used by the fallback texts. The Bool of the result is the
   is-summary flag: true exactly when anything other than the raw diff is
   returned. -/

def maxDiffLength : Nat := 30000

-- Math.round(diff.length / 1024), rounding half up
def roundKB (n : Nat) : Nat := (n + 512) / 1024

def largeSummary (fileChanges statDiff shortDiff : String) (diffLen : Nat) :
    String :=
  "Files changed:\n" ++ fileChanges ++ "\n\nFile statistics:\n" ++ statDiff
    ++ "\n\nFiles modified:\n" ++ shortDiff
    ++ "\n\nNote: This is a large commit with " ++ toString (roundKB diffLen)
    ++ "KB of changes.\nThe commit message is generated based on file changes"
    ++ " rather than detailed diff content."

def fallbackSummary (fileChanges statDiff : String) : String :=
  "Files changed:\n" ++ fileChanges ++ "\n\nFile statistics:\n" ++ statDiff
    ++ "\n\nNote: This is a very large commit. The commit message is"
    ++ " generated based on file changes and statistics."

def checkStagedChanges (fileChanges : String) (diffFetch : Except Unit String)
    (statDiff shortDiff : String) : String × Bool :=
  if fileChanges = "" then ("", false)
  else
    match diffFetch with
    | Except.ok d0 =>
      let diff := jsTrim d0
      if maxDiffLength < diff.length then
        (largeSummary fileChanges statDiff shortDiff diff.length, true)
      else (diff, false)
    | Except.error _ => (fallbackSummary fileChanges statDiff, true)

-- a staged diff of exactly 30000 characters, used at the threshold boundary
def d30 : String := String.mk (List.replicate 30000 'a')

theorem dropWhile_replicate_a (n : Nat) :
    (List.replicate n 'a').dropWhile isSpaceChar = List.replicate n 'a' := by
  cases n with
  | zero => rfl
  | succ k =>
    rw [List.replicate_succ, List.dropWhile_cons]
    simp [isSpaceChar]

theorem trimChars_replicate_a (n : Nat) :
    trimChars (List.replicate n 'a') = List.replicate n 'a' := by
  unfold trimChars
  rw [dropWhile_replicate_a, List.reverse_replicate, dropWhile_replicate_a,
    List.reverse_replicate]

theorem jsTrim_d30 : jsTrim d30 = d30 := by
  show String.mk (trimChars (String.mk (List.replicate 30000 'a')).data)
    = d30
  rw [show (String.mk (List.replicate 30000 'a')).data
      = List.replicate 30000 'a' from rfl]
  rw [trimChars_replicate_a]
  rfl

theorem d30_length : d30.length = 30000 := by
  show (String.mk (List.replicate 30000 'a')).data.length = 30000
  rw [show (String.mk (List.replicate 30000 'a')).data
      = List.replicate 30000 'a' from rfl]
  rw [List.length_replicate]

/- Claim theorems for the diff summarizer -/

/-- C1 (counterexample): at the boundary, a staged diff of exactly 30000
characters is returned verbatim with is-summary false, because the source
compares with strict greater-than; the claim asserts that the boundary value
yields the synthesized summary with is-summary true. -/
theorem checkStaged_boundary_cex :
    checkStagedChanges "M a.txt" (Except.ok d30) "" "" = (d30, false) := by
  unfold checkStagedChanges
  rw [if_neg (by decide : ¬ ("M a.txt" : String) = "")]
  show (if maxDiffLength < (jsTrim d30).length then _ else (jsTrim d30, false))
    = (d30, false)
  rw [jsTrim_d30, d30_length]
  rw [if_neg (by decide : ¬ maxDiffLength < 30000)]

/-- C1 (amended): diff payload selection is monotonic with the boundary on
the verbatim side: with a non-empty staged change set, a trimmed diff whose
length is at most 30000 characters is returned verbatim with is-summary
false, a trimmed diff strictly longer than 30000 characters yields the
synthesized file-summary payload with is-summary true, and a failed diff
fetch yields the fallback summary with is-summary true. -/
theorem checkStaged_threshold_amended (fc d s1 s2 : String) (hfc : fc ≠ "") :
    ((jsTrim d).length ≤ maxDiffLength →
      checkStagedChanges fc (Except.ok d) s1 s2 = (jsTrim d, false)) ∧
    (maxDiffLength < (jsTrim d).length →
      checkStagedChanges fc (Except.ok d) s1 s2
        = (largeSummary fc s1 s2 (jsTrim d).length, true)) ∧
    checkStagedChanges fc (Except.error ()) s1 s2
      = (fallbackSummary fc s1, true) := by
  refine ⟨?_, ?_, ?_⟩
  · intro hle
    unfold checkStagedChanges
    rw [if_neg hfc]
    exact if_neg (by omega)
  · intro hlt
    unfold checkStagedChanges
    rw [if_neg hfc]
    exact if_pos hlt
  · unfold checkStagedChanges
    rw [if_neg hfc]

/-- C1 (witness): concrete instances on both sides of the ceiling and for the
failed fetch. -/
theorem checkStaged_threshold_amended_witness :
    checkStagedChanges "M a.txt" (Except.ok "tiny diff") "st" "nm"
      = (jsTrim "tiny diff", false) ∧
    checkStagedChanges "M a.txt" (Except.error ()) "st" "nm"
      = (fallbackSummary "M a.txt" "st", true) := by
  have h := checkStaged_threshold_amended "M a.txt" "tiny diff" "st" "nm"
    (by decide)
  exact ⟨h.1 (by decide), h.2.2⟩

/- Orchestrator (AICommitGenerator.run in src/index.ts). The external
   collaborators are modelled by the environment: the git outputs feeding
   checkStagedChanges, the persisted notes content, the model call outcome
   and the commit outcome. The result records the final notes content, the
   exit code, whether the model was invoked and whether a commit write
   succeeded. -/

structure RunOptions where
  dryRun : Bool
  note : Option String
  listNotes : Bool
  clearNotes : Bool
deriving DecidableEq

structure RunEnv where
  fileChanges : String
  diffFetch : Except Unit String
  statDiff : String
  shortDiff : String
  notesFile : NotesFileContent
  repo : String
  noteTs : Nat
  genResult : Except Unit String
  commitOk : Bool
  cliPfx : Option String
  autoB : Option Bool
  branch : Option String
  pfxFormat : String

structure RunResult where
  notesFile : NotesFileContent
  modelCalled : Bool
  committed : Bool
  exitCode : Nat
  finalMessage : Option String
deriving DecidableEq

-- the generate-and-commit path of run, after the note-command dispatch
def runGenerate (opts : RunOptions) (env : RunEnv) : RunResult :=
  let diff := (checkStagedChanges env.fileChanges env.diffFetch env.statDiff
    env.shortDiff).1
  if diff = "" then
    { notesFile := env.notesFile, modelCalled := false, committed := false,
      exitCode := 1, finalMessage := none }
  else
    let stagedNotes := loadStagedNotes env.notesFile env.repo
    match env.genResult with
    | Except.error _ =>
      { notesFile := env.notesFile, modelCalled := true, committed := false,
        exitCode := 1, finalMessage := none }
    | Except.ok raw =>
      let commitMessage := normalizeMsg raw
      let pr := getPfx env.cliPfx env.autoB env.branch
      let finalMessage :=
        formatCommitMessage commitMessage pr.value (jsOr env.pfxFormat "brackets")
      if opts.dryRun then
        { notesFile := env.notesFile, modelCalled := true, committed := false,
          exitCode := 0, finalMessage := some finalMessage }
      else if env.commitOk then
        if 0 < stagedNotes.length then
          match clearStagedNotes true env.notesFile with
          | Except.ok w2 =>
            { notesFile := w2, modelCalled := true, committed := true,
              exitCode := 0, finalMessage := some finalMessage }
          | Except.error _ =>
            { notesFile := env.notesFile, modelCalled := true,
              committed := true, exitCode := 1,
              finalMessage := some finalMessage }
        else
          { notesFile := env.notesFile, modelCalled := true, committed := true,
            exitCode := 0, finalMessage := some finalMessage }
      else
        { notesFile := env.notesFile, modelCalled := true, committed := false,
          exitCode := 1, finalMessage := some finalMessage }

-- run: the note commands short-circuit before the generate path
def run (opts : RunOptions) (env : RunEnv) : RunResult :=
  if jsTruthy opts.note then
    { notesFile := addStagedNote env.notesFile env.repo (opts.note.getD "")
        env.noteTs,
      modelCalled := false, committed := false, exitCode := 0,
      finalMessage := none }
  else if opts.listNotes then
    { notesFile := env.notesFile, modelCalled := false, committed := false,
      exitCode := 0, finalMessage := none }
  else if opts.clearNotes then
    match clearStagedNotes true env.notesFile with
    | Except.ok w2 =>
      { notesFile := w2, modelCalled := false, committed := false,
        exitCode := 0, finalMessage := none }
    | Except.error _ =>
      { notesFile := env.notesFile, modelCalled := false, committed := false,
        exitCode := 1, finalMessage := none }
  else runGenerate opts env

/- Claim theorems for the orchestrator -/

/-- C2: on the generate path, in a run that loaded a non-empty note sequence,
the persisted notes file is cleared exactly when the commit write succeeded;
in dry-run mode and on a failed commit write no commit is recorded and the
notes file is left unchanged for a retry. -/
theorem run_clears_notes_iff_commit (opts : RunOptions) (env : RunEnv)
    (hn : jsTruthy opts.note = false) (hl : opts.listNotes = false)
    (hc : opts.clearNotes = false)
    (hnotes : loadStagedNotes env.notesFile env.repo ≠ []) :
    ((run opts env).committed = true →
      (run opts env).notesFile = NotesFileContent.absent) ∧
    ((run opts env).committed = false →
      (run opts env).notesFile = env.notesFile) ∧
    ((run opts env).notesFile = NotesFileContent.absent ↔
      (run opts env).committed = true) ∧
    (opts.dryRun = true → (run opts env).committed = false) ∧
    (env.commitOk = false → (run opts env).committed = false) := by
  have hrun : run opts env = runGenerate opts env := by
    simp [run, hn, hl, hc]
  have habs : env.notesFile ≠ NotesFileContent.absent := by
    intro h
    rw [h] at hnotes
    exact hnotes rfl
  have hlen : 0 < (loadStagedNotes env.notesFile env.repo).length :=
    List.length_pos.mpr hnotes
  have hclear : ∀ w : NotesFileContent,
      clearStagedNotes true w = Except.ok NotesFileContent.absent := by
    intro w; cases w <;> rfl
  rw [hrun]
  simp only [runGenerate]
  repeat' split
  all_goals simp_all [hclear]

set_option maxHeartbeats 1000000 in
/-- C2 (witness): concrete successful commit run with one loaded note; the
resulting notes file is cleared. -/
theorem run_clears_notes_iff_commit_witness :
    (run
        { dryRun := false, note := none, listNotes := false,
          clearNotes := false }
        { fileChanges := "M a.txt", diffFetch := Except.ok "diff text",
          statDiff := "", shortDiff := "",
          notesFile := NotesFileContent.parsed
            { notes := some [{ message := "why", timestamp := 0 }],
              repository := "/r" },
          repo := "/r", noteTs := 0, genResult := Except.ok "feat: x",
          commitOk := true, cliPfx := none, autoB := none, branch := none,
          pfxFormat := "" }).notesFile = NotesFileContent.absent :=
  (run_clears_notes_iff_commit
    { dryRun := false, note := none, listNotes := false, clearNotes := false }
    { fileChanges := "M a.txt", diffFetch := Except.ok "diff text",
      statDiff := "", shortDiff := "",
      notesFile := NotesFileContent.parsed
        { notes := some [{ message := "why", timestamp := 0 }],
          repository := "/r" },
      repo := "/r", noteTs := 0, genResult := Except.ok "feat: x",
      commitOk := true, cliPfx := none, autoB := none, branch := none,
      pfxFormat := "" }
    (by decide) (by decide) (by decide) (by decide)).1 (by decide)

/-- C7: with an empty staged change set on the generate path, the run ends
with exit code 1 and the language model is never invoked. -/
theorem run_empty_staged_no_model_call (opts : RunOptions) (env : RunEnv)
    (hn : jsTruthy opts.note = false) (hl : opts.listNotes = false)
    (hc : opts.clearNotes = false) (hfc : env.fileChanges = "") :
    (run opts env).exitCode = 1 ∧ (run opts env).modelCalled = false := by
  have hrun : run opts env = runGenerate opts env := by
    simp [run, hn, hl, hc]
  have hd : (checkStagedChanges env.fileChanges env.diffFetch env.statDiff
      env.shortDiff).1 = "" := by
    unfold checkStagedChanges
    rw [if_pos hfc]
  rw [hrun]
  unfold runGenerate
  rw [if_pos hd]
  exact ⟨rfl, rfl⟩

/-- C7 (witness): concrete run with nothing staged. -/
theorem run_empty_staged_no_model_call_witness :
    (run
        { dryRun := false, note := none, listNotes := false,
          clearNotes := false }
        { fileChanges := "", diffFetch := Except.ok "", statDiff := "",
          shortDiff := "", notesFile := NotesFileContent.absent, repo := "/r",
          noteTs := 0, genResult := Except.ok "feat: x", commitOk := true,
          cliPfx := none, autoB := none, branch := none,
          pfxFormat := "" }).exitCode = 1 ∧
    (run
        { dryRun := false, note := none, listNotes := false,
          clearNotes := false }
        { fileChanges := "", diffFetch := Except.ok "", statDiff := "",
          shortDiff := "", notesFile := NotesFileContent.absent, repo := "/r",
          noteTs := 0, genResult := Except.ok "feat: x", commitOk := true,
          cliPfx := none, autoB := none, branch := none,
          pfxFormat := "" }).modelCalled = false :=
  run_empty_staged_no_model_call
    { dryRun := false, note := none, listNotes := false, clearNotes := false }
    { fileChanges := "", diffFetch := Except.ok "", statDiff := "",
      shortDiff := "", notesFile := NotesFileContent.absent, repo := "/r",
      noteTs := 0, genResult := Except.ok "feat: x", commitOk := true,
      cliPfx := none, autoB := none, branch := none, pfxFormat := "" }
    (by decide) (by decide) (by decide) (by decide)

end CommitGenius
